import Mathlib

/-!
# Verification of the topology-validation core of the drawing demo

This file gives a shallow embedding of the topology-validation engine found in
the OpenLayers/Turf drawing demo (`src/unnamed/part_004`) and proves or refutes
the specification claims about it.

Embedding conventions:
* Coordinates are modelled as pairs of rationals (the JS engine computes on
  IEEE doubles; every claim here is about threshold comparisons and control
  flow, for which exact rational arithmetic is the faithful shallow model).
  Features are modelled in geographic (lon/lat) coordinates: `checkTopology`
  converts every stored coordinate with `toLonLat` before any computation, and
  the admission gate does the same, so the uniform projection conversion is
  dropped from the model.
* The Turf.js numeric routines (`turf.distance`, `turf.area`,
  `turf.booleanOverlap`, ...) are third-party oracles.  They are abstracted
  into a `Geo` structure of function fields; a routine whose call sites are
  guarded by `try`/`catch` in the source (because the library can throw) is
  given an `Option` codomain, `none` meaning "the call threw".  Structural
  theorems are proved for every instantiation of `Geo`; concrete witnesses
  instantiate it explicitly.
* The Turf feature constructors `turf.point` / `turf.lineString` /
  `turf.polygon` validate their input and throw on degenerate input
  (documented behaviour of `@turf/helpers`: a LineString needs at least two
  positions; a polygon ring needs at least four positions and an exactly
  closed first/last position).  They are modelled with `Except`.
-/

attribute [local semireducible] Rat.add Rat.sub Rat.mul Rat.inv

/-- A geographic coordinate: (longitude, latitude) as exact rationals. -/
abbrev Coord : Type := ℚ × ℚ

/-- An OpenLayers geometry held in the drawing source (`drawSource`).
A polygon stores its list of rings, as `Polygon.getCoordinates()` does. -/
inductive OLGeom : Type
  | point (c : Coord)
  | lineString (cs : List Coord)
  | polygon (rings : List (List Coord))
  deriving DecidableEq

/-- A Turf.js geometry produced by the conversion step of `checkTopology`
(part_004 lines 225-244): a Point, a LineString, or a Polygon reduced to its
outer ring (`getCoordinates()[0]`). -/
inductive TGeom : Type
  | point (c : Coord)
  | line (cs : List Coord)
  | poly (ring : List Coord)
  deriving DecidableEq

/-- A converted feature with its user-facing 1-based ordinal (`index`) and its
0-based position in the drawing source (`originalIndex`), as attached in the
`properties` object (part_004 lines 240-243). -/
structure TFeat : Type where
  geom : TGeom
  index : Nat
  originalIndex : Nat
  deriving DecidableEq

/-- One violation reported by `checkTopology`.  The JS code pushes formatted
strings; the embedding keeps the same information structured: the constructor
identifies the push site, the `Nat` arguments are the 1-based feature ordinals
in the order they appear in the message, and the rational arguments are the
numeric payloads interpolated into the message. -/
inductive Violation : Type
  | selfIntersect (i : Nat)
  | tooFewPoints (i : Nat)
  | unclosed (i : Nat)
  | areaTooSmall (i : Nat)
  | invalidPolygon (i : Nat)
  | tooFewLinePoints (i : Nat)
  | lineTooShort (i : Nat)
  | duplicateVertex (i : Nat)
  | pointsTooClose (i j : Nat) (d : ℚ)
  | overlap (i j : Nat)
  | crossing (i j : Nat)
  | lineCrossesPoly (li pi' : Nat)
  | overlapArea (i j : Nat) (a : ℚ)
  | intersectError (i j : Nat)
  | containsPoly (i j : Nat) (pct : ℚ)
  | adjacent (i j : Nat)
  | gap (i j : Nat) (a : ℚ)
  | lineInPoly (li pi' : Nat)
  | boundaryIntersections (li pi' : Nat) (n : Nat)
  | dangling (i j : Nat) (d : ℚ)
  | singleEndpoint (i j : Nat)
  | sharedBoundary (i j : Nat) (n : Nat)
  deriving DecidableEq

/-- The Turf.js numeric routines used by `checkTopology`, abstracted as
oracles.  An `Option` codomain models a routine whose call site is wrapped in
`try`/`catch` in the source (or, for `booleanIntersects`, one that can throw
while being unguarded); `none` means the library call threw.
`intersectArea`/`unionArea` collapse `turf.intersect`/`turf.union` followed by
`turf.area` inside one `try` block: outer `none` = some call threw, inner
`none` = the boolean-operation returned a null geometry. -/
structure Geo : Type where
  distance : Coord → Coord → ℚ
  lineLength : List Coord → ℚ
  polyArea : List Coord → ℚ
  booleanValid : List Coord → Option Bool
  booleanOverlap : TGeom → TGeom → Option Bool
  booleanCrosses : TGeom → TGeom → Option Bool
  booleanIntersects : TGeom → TGeom → Option Bool
  booleanContains : TGeom → TGeom → Option Bool
  intersectArea : TGeom → TGeom → Option (Option ℚ)
  unionArea : TGeom → TGeom → Option (Option ℚ)
  distanceToLine : TGeom → TGeom → Option ℚ
  lineIntersectCount : TGeom → TGeom → Option Nat

/-- Duplicate-coordinate epsilon in degrees: `0.000001` (part_004 lines 271,
310). -/
def dupEps : ℚ := 1 / 1000000

/-- "Same point" threshold in meters: `0.1` (part_004 lines 326, 440, 532). -/
def coincideM : ℚ := 1 / 10

/-- Area threshold used for tiny-area, intersection and gap checks: the
literal `0.0001` (part_004 lines 279, 404, 457).  The adjacent source comments
call this "about 1 square meter". -/
def minAreaQ : ℚ := 1 / 10000

/-- Minimum line length in meters: `0.1` (part_004 line 302). -/
def minLenM : ℚ := 1 / 10

/-- Dangling-endpoint threshold in meters: `1.0` (part_004 line 549). -/
def dangleM : ℚ := 1

/-- `turf.point`: never rejects its coordinate pair. -/
def turfPoint (c : Coord) : Except String TGeom := .ok (.point c)

/-- `turf.lineString`: throws unless there are at least two positions. -/
def turfLineString (cs : List Coord) : Except String TGeom :=
  if cs.length < 2 then .error "coordinates must be an array of two or more positions"
  else .ok (.line cs)

/-- `turf.polygon` on a single ring: throws unless the ring has at least four
positions and its first and last positions are exactly equal. -/
def turfPolygon (ring : List Coord) : Except String TGeom :=
  if ring.length < 4 then
    .error "Each LinearRing of a Polygon must have 4 or more Positions."
  else if ring.headD (0, 0) ≠ ring.getLastD (0, 0) then
    .error "First and last Position are not equivalent."
  else .ok (.poly ring)

/-- Conversion of one OpenLayers geometry to a Turf geometry (part_004 lines
226-238): a Polygon contributes only its outer ring `getCoordinates()[0]`. -/
def convGeom : OLGeom → Except String TGeom
  | .point c => turfPoint c
  | .lineString cs => turfLineString cs
  | .polygon rings => turfPolygon (rings.headD [])

/-- Conversion of the feature list with positional indexing (part_004 lines
225-244).  A constructor exception aborts the whole map, hence `Except`. -/
def toTurfAux (i : Nat) : List OLGeom → Except String (List TFeat)
  | [] => .ok []
  | g :: gs =>
    match convGeom g with
    | .error e => .error e
    | .ok tg =>
      match toTurfAux (i + 1) gs with
      | .error e => .error e
      | .ok rest => .ok (⟨tg, i + 1, i⟩ :: rest)

/-- `features.map((feature, index) => ...)` of part_004 lines 225-244. -/
def toTurf (gs : List OLGeom) : Except String (List TFeat) := toTurfAux 0 gs

/-- Componentwise closeness test used by the duplicate-vertex scan (part_004
lines 310-311): both coordinate differences below `0.000001`. -/
def closeCoord (a b : Coord) : Bool :=
  |a.1 - b.1| < dupEps ∧ |a.2 - b.2| < dupEps

/-- The duplicate-vertex double loop of a LineString (part_004 lines 308-317):
for each vertex position `i` (except the last) the inner loop pushes one
violation and breaks as soon as some later vertex is within epsilon. -/
def dupVertexViolations (fi : Nat) (cs : List Coord) : List Violation :=
  (List.range (cs.length - 1)).filterMap fun i =>
    if ((List.range cs.length).filter (fun j => i < j)).any
        (fun j => closeCoord (cs.getD i (0, 0)) (cs.getD j (0, 0))) then
      some (.duplicateVertex fi)
    else none

/-- Self-checks of a Polygon feature (part_004 lines 254-288).  The whole
block is one `try`: if `turf.booleanValid` throws, the `catch` pushes the
"invalid polygon" violation and the remaining checks are skipped. -/
def polySelf (geo : Geo) (fi : Nat) (ring : List Coord) : List Violation :=
  match geo.booleanValid ring with
  | none => [.invalidPolygon fi]
  | some v =>
    (if v then [] else [.selfIntersect fi]) ++
    (if ring.length < 3 then [.tooFewPoints fi] else []) ++
    (if |((ring.headD (0, 0)).1 - (ring.getLastD (0, 0)).1)| > dupEps ∨
        |((ring.headD (0, 0)).2 - (ring.getLastD (0, 0)).2)| > dupEps then
      [.unclosed fi] else []) ++
    (if geo.polyArea ring < minAreaQ then [.areaTooSmall fi] else [])

/-- Self-checks of a LineString feature (part_004 lines 291-318). -/
def lineSelf (geo : Geo) (fi : Nat) (cs : List Coord) : List Violation :=
  (if cs.length < 2 then [.tooFewLinePoints fi] else []) ++
  (if geo.lineLength cs < minLenM then [.lineTooShort fi] else []) ++
  dupVertexViolations fi cs

/-- Self-phase check of a Point feature (part_004 lines 321-332): it scans
every *other* feature (by position) and pushes a coincidence violation for
each other Point closer than 0.1 m. -/
def pointSelf (geo : Geo) (all : List TFeat) (f : TFeat) (c : Coord) : List Violation :=
  all.filterMap fun other =>
    if other.originalIndex ≠ f.originalIndex then
      match other.geom with
      | .point c2 =>
        if geo.distance c c2 < coincideM then
          some (.pointsTooClose f.index other.index (geo.distance c c2))
        else none
      | _ => none
    else none

/-- All self-phase violations of one feature (part_004 lines 247-338). -/
def selfCheckFeature (geo : Geo) (all : List TFeat) (f : TFeat) : List Violation :=
  match f.geom with
  | .point c => pointSelf geo all f c
  | .line cs => lineSelf geo f.index cs
  | .poly ring => polySelf geo f.index ring

/-- The self-check phase: violations in feature order, and the positions of
features that produced at least one violation (`hasError` ⇒
`errorFeatureIndices.add(originalIndex)`, part_004 lines 335-337), which the
JS `Set` records in ascending insertion order. -/
def selfPhase (geo : Geo) (tfs : List TFeat) : List Violation × List Nat :=
  (tfs.flatMap (selfCheckFeature geo tfs),
   tfs.filterMap fun f =>
     if selfCheckFeature geo tfs f = [] then none else some f.originalIndex)

/-- Overlap check of one pair (part_004 lines 349-359), guarded by `try`. -/
def overlapCheck (geo : Geo) (f1 f2 : TFeat) : List (Violation × Bool) :=
  match geo.booleanOverlap f1.geom f2.geom with
  | some true => [(.overlap f1.index f2.index, true)]
  | _ => []

/-- Crossing checks of one pair (part_004 lines 362-392): line/line and
line/polygon in either order, each guarded by `try`.  In the polygon-first
order the source calls `turf.booleanCrosses(feature2, feature1)` and words the
message line-first. -/
def crossCheck (geo : Geo) (f1 f2 : TFeat) : List (Violation × Bool) :=
  match f1.geom, f2.geom with
  | .line _, .line _ =>
    match geo.booleanCrosses f1.geom f2.geom with
    | some true => [(.crossing f1.index f2.index, true)]
    | _ => []
  | .line _, .poly _ =>
    match geo.booleanCrosses f1.geom f2.geom with
    | some true => [(.lineCrossesPoly f1.index f2.index, true)]
    | _ => []
  | .poly _, .line _ =>
    match geo.booleanCrosses f2.geom f1.geom with
    | some true => [(.lineCrossesPoly f2.index f1.index, true)]
    | _ => []
  | _, _ => []

/-- Advanced polygon/polygon checks of one pair (part_004 lines 396-466).
`turf.booleanIntersects` (line 398) is the single pairwise predicate call NOT
wrapped in a `try`; if it throws the whole `checkTopology` invocation aborts,
hence the `Option` result.  The entry `Bool` records whether the push site
also adds both feature positions to `errorFeatureIndices`; the adjacency note
(line 441) deliberately does not. -/
def polyPairCheck (geo : Geo) (f1 f2 : TFeat) : Option (List (Violation × Bool)) :=
  match f1.geom, f2.geom with
  | .poly r1, .poly r2 =>
    match geo.booleanIntersects f1.geom f2.geom with
    | none => none
    | some inter =>
      let eInter : List (Violation × Bool) :=
        if inter then
          match geo.intersectArea f1.geom f2.geom with
          | none => [(.intersectError f1.index f2.index, true)]
          | some none => []
          | some (some a) =>
            if a > minAreaQ then [(.overlapArea f1.index f2.index a, true)] else []
        else []
      let eContain : List (Violation × Bool) :=
        match geo.booleanContains f1.geom f2.geom with
        | none => []
        | some c12 =>
          let x1 : List (Violation × Bool) :=
            if c12 then
              [(.containsPoly f1.index f2.index (geo.polyArea r2 / geo.polyArea r1 * 100), true)]
            else []
          match geo.booleanContains f2.geom f1.geom with
          | none => x1
          | some c21 =>
            x1 ++ (if c21 then
              [(.containsPoly f2.index f1.index (geo.polyArea r1 / geo.polyArea r2 * 100), true)]
            else [])
      let eAdj : List (Violation × Bool) :=
        match geo.distanceToLine f1.geom f2.geom with
        | none => []
        | some d => if d < coincideM then [(.adjacent f1.index f2.index, false)] else []
      let eGap : List (Violation × Bool) :=
        match geo.unionArea f1.geom f2.geom with
        | none => []
        | some none => []
        | some (some u) =>
          let g := u - geo.polyArea r1 - geo.polyArea r2
          if g > minAreaQ then [(.gap f1.index f2.index g, true)] else []
      some (eInter ++ eContain ++ eAdj ++ eGap)
  | _, _ => some []

/-- Line-then-polygon checks of one pair (part_004 lines 469-491): the
containment note (not highlighted) and the boundary-intersection count. -/
def linePolyCheck (geo : Geo) (f1 f2 : TFeat) : List (Violation × Bool) :=
  match f1.geom, f2.geom with
  | .line _, .poly _ =>
    (match geo.booleanContains f2.geom f1.geom with
     | some true => [(.lineInPoly f1.index f2.index, false)]
     | _ => []) ++
    (match geo.lineIntersectCount f1.geom f2.geom with
     | none => []
     | some n => if n > 0 then [(.boundaryIntersections f1.index f2.index n, true)] else [])
  | _, _ => []

/-- Polygon-then-line checks of one pair (part_004 lines 494-516), mirroring
`linePolyCheck` with the arguments swapped at the Turf calls. -/
def polyLineCheck (geo : Geo) (f1 f2 : TFeat) : List (Violation × Bool) :=
  match f1.geom, f2.geom with
  | .poly _, .line _ =>
    (match geo.booleanContains f1.geom f2.geom with
     | some true => [(.lineInPoly f2.index f1.index, false)]
     | _ => []) ++
    (match geo.lineIntersectCount f2.geom f1.geom with
     | none => []
     | some n => if n > 0 then [(.boundaryIntersections f2.index f1.index n, true)] else [])
  | _, _ => []

/-- The two endpoints `[coords[0], coords[coords.length-1]]` of a line
(part_004 lines 523-524). -/
def lineEndpoints (cs : List Coord) : List Coord :=
  [cs.headD (0, 0), cs.getLastD (0, 0)]

/-- The four endpoint-pair distances of two lines, in the loop order of
part_004 lines 529-537 (first line's endpoints outer, second inner). -/
def endpointDists (geo : Geo) (cs1 cs2 : List Coord) : List ℚ :=
  (lineEndpoints cs1).flatMap fun a => (lineEndpoints cs2).map fun b => geo.distance a b

/-- The minimum endpoint distance (part_004 lines 541-547).  The JS loop
seeds with `Infinity`; over the (always nonempty) distance list, seeding the
fold with the head yields the same minimum. -/
def minEndpointDist (geo : Geo) (cs1 cs2 : List Coord) : ℚ :=
  (endpointDists geo cs1 cs2).foldl min ((endpointDists geo cs1 cs2).headD 0)

/-- Dangling-endpoint check of a line/line pair (part_004 lines 519-560):
count the endpoint pairs closer than 0.1 m; with none, report a potential
dangling endpoint when the minimum endpoint distance is below 1 m; with
exactly one, report a single-endpoint connection. -/
def endpointPairCheck (geo : Geo) (f1 f2 : TFeat) : List (Violation × Bool) :=
  match f1.geom, f2.geom with
  | .line cs1, .line cs2 =>
    let conn := ((endpointDists geo cs1 cs2).filter (fun d => d < coincideM)).length
    if conn = 0 then
      if minEndpointDist geo cs1 cs2 < dangleM then
        [(.dangling f1.index f2.index (minEndpointDist geo cs1 cs2), true)]
      else []
    else if conn = 1 then [(.singleEndpoint f1.index f2.index, true)] else []
  | _, _ => []

/-- Everything the inner body of the pairwise double loop (part_004 lines
343-560) pushes for the pair `(f1, f2)`, in push order; `none` when the
unguarded `turf.booleanIntersects` call throws and the whole scan aborts. -/
def pairCheck (geo : Geo) (f1 f2 : TFeat) : Option (List (Violation × Bool)) :=
  match polyPairCheck geo f1 f2 with
  | none => none
  | some pp =>
    some (overlapCheck geo f1 f2 ++ crossCheck geo f1 f2 ++ pp ++
      linePolyCheck geo f1 f2 ++ polyLineCheck geo f1 f2 ++ endpointPairCheck geo f1 f2)

/-- All ordered pairs `(i, j)` with `i < j` in scan order, as produced by the
nested loops of part_004 lines 341-342. -/
def orderedPairs : List α → List (α × α)
  | [] => []
  | x :: xs => (xs.map fun y => (x, y)) ++ orderedPairs xs

/-- `Set.add`: appends an element unless already present, preserving the JS
`Set` insertion order. -/
def insertIdx (l : List Nat) (i : Nat) : List Nat := if i ∈ l then l else l ++ [i]

/-- Record the entries of one pair check into the `(errors,
errorFeatureIndices)` accumulators: each violation is appended, and each
highlighted push site adds both feature positions. -/
def pushEntries (o1 o2 : Nat) (acc : List Violation × List Nat)
    (es : List (Violation × Bool)) : List Violation × List Nat :=
  es.foldl (fun a e =>
    (a.1 ++ [e.1], if e.2 then insertIdx (insertIdx a.2 o1) o2 else a.2)) acc

/-- The pairwise scan (part_004 lines 341-562) threaded over the accumulators;
`none` when some pair aborted the scan. -/
def pairPhase (geo : Geo) (pairs : List (TFeat × TFeat))
    (acc : List Violation × List Nat) : Option (List Violation × List Nat) :=
  match pairs with
  | [] => some acc
  | (f1, f2) :: rest =>
    match pairCheck geo f1 f2 with
    | none => none
    | some es => pairPhase geo rest (pushEntries f1.originalIndex f2.originalIndex acc es)

/-- Whether a converted feature is a Polygon (the filter of part_004 line
565). -/
def isPolyFeat (f : TFeat) : Bool :=
  match f.geom with
  | .poly _ => true
  | _ => false

/-- Outer ring of a converted polygon feature. -/
def ringOf (f : TFeat) : List Coord :=
  match f.geom with
  | .poly r => r
  | _ => []

/-- Number of near-coincident boundary-vertex pairs of two rings (part_004
lines 577-588). -/
def sharedCount (geo : Geo) (r1 r2 : List Coord) : Nat :=
  (r1.flatMap fun c1 => r2.filter fun c2 => geo.distance c1 c2 < coincideM).length

/-- The polygon-group pass (part_004 lines 564-601): only when more than two
polygons are present, every polygon pair with at least two near-coincident
boundary vertices gets a shared-boundary note (never highlighted). -/
def groupPhase (geo : Geo) (tfs : List TFeat) : List Violation :=
  let polys := tfs.filter isPolyFeat
  if polys.length > 2 then
    (orderedPairs polys).flatMap fun p =>
      let n := sharedCount geo (ringOf p.1) (ringOf p.2)
      if n ≥ 2 then [.sharedBoundary p.1.index p.2.index n] else []
  else []

/-- Result of the computational core of `checkTopology`: either an uncaught
exception aborted it, or it produced the error list and the highlighted
feature positions. -/
inductive CoreResult : Type
  | aborted
  | report (errors : List Violation) (highlighted : List Nat)
  deriving DecidableEq

/-- The computational core of `checkTopology` on a nonempty snapshot:
conversion, self-check phase, pairwise scan, polygon-group pass (part_004
lines 225-601). -/
def checkCore (geo : Geo) (gs : List OLGeom) : CoreResult :=
  match toTurf gs with
  | .error _ => .aborted
  | .ok tfs =>
    match pairPhase geo (orderedPairs tfs) (selfPhase geo tfs) with
    | none => .aborted
    | some (es, idx) => .report (es ++ groupPhase geo tfs) idx

/-- The two vector sources the validator touches: the drawing source it reads
and the highlight source it rebuilds (features listed in insertion order). -/
structure MapState : Type where
  draw : List OLGeom
  highlight : List OLGeom
  deriving DecidableEq

/-- The value handed to the report/highlight consumer on a completed run. -/
structure TopoOutput : Type where
  errors : List Violation
  highlighted : List Nat
  deriving DecidableEq

/-- Observable outcome of one `checkTopology` invocation: the early "nothing
to check" return (part_004 lines 216-219), an uncaught exception, or a
report. -/
inductive TopoResult : Type
  | noFeatures
  | aborted
  | report (out : TopoOutput)
  deriving DecidableEq

/-- One invocation of `checkTopology` (part_004 lines 211-626): on an empty
drawing source it returns early leaving both sources untouched; otherwise it
clears the highlight source, runs the core, and on success fills the
highlight source with clones of the geometries of the highlighted features
(lines 603-613). -/
def runTopology (geo : Geo) (s : MapState) : MapState × TopoResult :=
  if s.draw.isEmpty then (s, .noFeatures)
  else
    match checkCore geo s.draw with
    | .aborted => (⟨s.draw, []⟩, .aborted)
    | .report es idx =>
      (⟨s.draw, idx.filterMap fun i => s.draw.get? i⟩, .report ⟨es, idx⟩)

/-- The error list of a result, empty unless a report was produced. -/
def errorsOf : TopoResult → List Violation
  | .report o => o.errors
  | _ => []

/-- The installed drawing-range constraint `[minX, minY, maxX, maxY]`
(`rangeExtent`, part_004 line 1612). -/
structure RangeExtent : Type where
  minLon : ℚ
  minLat : ℚ
  maxLon : ℚ
  maxLat : ℚ
  deriving DecidableEq

/-- The outcome message of `confirmRange` (part_004 lines 1586-1608). -/
inductive RangeMsg : Type
  | lonOutOfRange
  | latOutOfRange
  | minNotLessThanMax
  | spanTooSmall
  | success
  deriving DecidableEq

/-- The numeric validation-and-install path of the elaborated `confirmRange`
(part_004 lines 1572-1678), after the form produced four parsed numbers: the
longitude/latitude domain checks, the strict ordering check, and the
0.001-degree minimum-span check, each returning an error message before any
assignment to `rangeExtent`; only the all-clear path installs the new extent.
(The preceding `isNaN` guard of line 1581 concerns IEEE parse failures and
has no counterpart on exact rationals.) -/
def confirmRange (prior : Option RangeExtent) (minX minY maxX maxY : ℚ) :
    Option RangeExtent × RangeMsg :=
  if minX < -180 ∨ minX > 180 ∨ maxX < -180 ∨ maxX > 180 then (prior, .lonOutOfRange)
  else if minY < -90 ∨ minY > 90 ∨ maxY < -90 ∨ maxY > 90 then (prior, .latOutOfRange)
  else if minX ≥ maxX ∨ minY ≥ maxY then (prior, .minNotLessThanMax)
  else if maxX - minX < 1 / 1000 ∨ maxY - minY < 1 / 1000 then (prior, .spanTooSmall)
  else (some ⟨minX, minY, maxX, maxY⟩, .success)

/-- The per-coordinate bound test of the drawend range check (part_004 lines
1052-1053 and the identical line/ring loops): `true` when the coordinate
violates one of the four inclusive bounds. -/
def coordOutside (ext : RangeExtent) (c : Coord) : Bool :=
  c.1 < ext.minLon ∨ c.1 > ext.maxLon ∨ c.2 < ext.minLat ∨ c.2 > ext.maxLat

/-- The kind-dispatched range check of the drawend handler (part_004 lines
1044-1081): a Point tests its single coordinate, a LineString every vertex,
a Polygon every vertex of every ring (the loop-and-break structure is the
short-circuit `all`). -/
def isWithinRange (ext : RangeExtent) : OLGeom → Bool
  | .point c => !coordOutside ext c
  | .lineString cs => cs.all fun c => !coordOutside ext c
  | .polygon rings => rings.all fun r => r.all fun c => !coordOutside ext c

/-- The drawend admission gate (part_004 lines 1038-1127): with a constraint
installed, a finished geometry stays in the drawing source exactly when it is
within range, otherwise the handler removes it; without a constraint every
geometry is committed. -/
def drawEnd (range : Option RangeExtent) (draw : List OLGeom) (g : OLGeom) : List OLGeom :=
  match range with
  | none => draw ++ [g]
  | some ext => if isWithinRange ext g then draw ++ [g] else draw

/-- Every coordinate of an OpenLayers geometry (for stating the admission
claim). -/
def coordsOf : OLGeom → List Coord
  | .point c => [c]
  | .lineString cs => cs
  | .polygon rings => rings.flatMap id

/-- A concrete instantiation of the Turf oracles used to evaluate witnesses
and counterexamples.  Every predicate succeeds and returns the benign answer:
no overlap/crossing/intersection/containment, unit polygon areas with the
union area equal to their sum (zero gap), and all distances far above every
threshold.  Witness inputs override single fields; each override is justified
at its use site against the real library behaviour on the concrete input. -/
def geo0 : Geo where
  distance := fun _ _ => 1000
  lineLength := fun _ => 1000
  polyArea := fun _ => 1
  booleanValid := fun _ => some true
  booleanOverlap := fun _ _ => some false
  booleanCrosses := fun _ _ => some false
  booleanIntersects := fun _ _ => some false
  booleanContains := fun _ _ => some false
  intersectArea := fun _ _ => some none
  unionArea := fun _ _ => some (some 2)
  distanceToLine := fun _ _ => some 1000
  lineIntersectCount := fun _ _ => some 0

/-- Is this a "points coincide" (距离过近) violation? -/
def isCoincide : Violation → Bool
  | .pointsTooClose _ _ _ => true
  | _ => false

/-- Is this a "potential dangling endpoint" (潜在悬挂点) violation? -/
def isDangling : Violation → Bool
  | .dangling _ _ _ => true
  | _ => false

/-- The first feature ordinal mentioned in a violation message. -/
def primaryId : Violation → Nat
  | .selfIntersect i => i
  | .tooFewPoints i => i
  | .unclosed i => i
  | .areaTooSmall i => i
  | .invalidPolygon i => i
  | .tooFewLinePoints i => i
  | .lineTooShort i => i
  | .duplicateVertex i => i
  | .pointsTooClose i _ _ => i
  | .overlap i _ => i
  | .crossing i _ => i
  | .lineCrossesPoly i _ => i
  | .overlapArea i _ _ => i
  | .intersectError i _ => i
  | .containsPoly i _ _ => i
  | .adjacent i _ => i
  | .gap i _ _ => i
  | .lineInPoly i _ => i
  | .boundaryIntersections i _ _ => i
  | .dangling i _ _ => i
  | .singleEndpoint i _ => i
  | .sharedBoundary i _ _ => i

/-- The highlighted positions of a result, empty unless a report was
produced. -/
def highlightedOf : TopoResult → List Nat
  | .report o => o.highlighted
  | _ => []

/-- The violations of the pairwise scan in `(i, j)` scan order, flattened
(each pair contributing the entries of its `pairCheck`). -/
def pairFlatErrors (geo : Geo) (tfs : List TFeat) : List Violation :=
  (orderedPairs tfs).flatMap fun p => ((pairCheck geo p.1 p.2).getD []).map Prod.fst

/-- Outcome of a validation run on a snapshot of exactly two LineStrings. -/
def twoLineRun (geo : Geo) (cs1 cs2 : List Coord) : TopoResult :=
  (runTopology geo ⟨[.lineString cs1, .lineString cs2], []⟩).2

/-- The conjunction of the three rule classes `confirmRange` enforces: WGS84
domain bounds, strict ordering, and the 0.001-degree minimum span. -/
def rangeRulesOk (minX minY maxX maxY : ℚ) : Prop :=
  (-180 ≤ minX ∧ minX ≤ 180 ∧ -180 ≤ maxX ∧ maxX ≤ 180) ∧
  (-90 ≤ minY ∧ minY ≤ 90 ∧ -90 ≤ maxY ∧ maxY ≤ 90) ∧
  (minX < maxX ∧ minY < maxY) ∧
  (1 / 1000 ≤ maxX - minX ∧ 1 / 1000 ≤ maxY - minY)

/-- A closed square ring used by concrete witnesses. -/
def ringA : List Coord := [(0, 0), (0, 2), (2, 2), (0, 0)]

/-- A second closed square ring used by concrete witnesses. -/
def ringB : List Coord := [(5, 5), (5, 7), (7, 7), (5, 5)]

/-- The first point of the spec's duplicate-point example: `(10.0, 20.0)`. -/
def ptA : Coord := (10, 20)

/-- The second point of the spec's duplicate-point example:
`(10.0000001, 20.0000001)`. -/
def ptB : Coord := (10 + 1 / 10000000, 20 + 1 / 10000000)

/-- A short vertical line (≈ 1.1 m long) used by concrete witnesses. -/
def lnA : List Coord := [(0, 0), (0, 1 / 100000)]

/-- A second short vertical line, ≈ 2 m further north. -/
def lnB : List Coord := [(0, 3 / 100000), (0, 4 / 100000)]

/-- Oracle instance for the C9 witness: point distance 0.02 m (matching the
real `turf.distance` of ≈ 0.015 m between `ptA` and `ptB`). -/
def geoW9 : Geo := { geo0 with distance := fun _ _ => 1 / 50 }

/-- Snapshot for the C9 witness: the spec's two near-coincident points. -/
def gsW9 : List OLGeom := [.point ptA, .point ptB]

/-- Converted features of `gsW9`. -/
def tfsW9 : List TFeat := [⟨.point ptA, 1, 0⟩, ⟨.point ptB, 2, 1⟩]

/-! ## Theorems -/

/-- Helper: a validation run never changes the drawing source. -/
theorem runTopology_draw_eq (geo : Geo) (s : MapState) :
    (runTopology geo s).1.draw = s.draw := by
  unfold runTopology
  by_cases h : s.draw.isEmpty
  · simp [h]
  · simp only [h, if_false]
    cases checkCore geo s.draw <;> rfl

/-- C1: running the topology validation twice on an unmodified collection
produces the same result (the same ordered violation list, hence also the
same highlighted positions) and the same highlight-source contents on both
runs: the computation reads only the drawing source, which the first run
leaves untouched. -/
theorem checkTopology_idempotent (geo : Geo) (s : MapState) :
    (runTopology geo (runTopology geo s).1).2 = (runTopology geo s).2 ∧
    (runTopology geo (runTopology geo s).1).1.highlight =
      (runTopology geo s).1.highlight := by
  by_cases he : s.draw.isEmpty
  · simp [runTopology, he]
  · rcases hc : checkCore geo s.draw with _ | ⟨es, idx⟩ <;>
      simp [runTopology, he, hc]

/-- C10: the validator never modifies the feature collection it checks (the
drawing source is identical before and after every run), and on an empty
collection it takes the early "nothing to check" return: no conversion, no
checks, no violations, and even the highlight source is left as it was. -/
theorem checkTopology_frame (geo : Geo) (s : MapState) :
    (runTopology geo s).1.draw = s.draw ∧
    (s.draw = [] → runTopology geo s = (s, .noFeatures)) := by
  refine ⟨runTopology_draw_eq geo s, fun h => ?_⟩
  simp [runTopology, h]

/-- Witness for C10 at a concrete state with a nonempty highlight source. -/
theorem checkTopology_frame_witness :
    runTopology geo0 ⟨[], [OLGeom.point (0, 0)]⟩ =
      (⟨[], [OLGeom.point (0, 0)]⟩, .noFeatures) :=
  (checkTopology_frame geo0 ⟨[], [OLGeom.point (0, 0)]⟩).2 rfl

/-- C2: the range setter validates the WGS84 domain bounds, the strict
ordering of min/max on both axes, and the 0.001-degree minimum span; on any
failure it reports the corresponding error and leaves the previously
installed extent (or its absence) unchanged, and only when every rule holds
does it install exactly the requested extent. -/
theorem confirmRange_atomic (prior : Option RangeExtent) (minX minY maxX maxY : ℚ) :
    ((confirmRange prior minX minY maxX maxY).2 ≠ .success →
      (confirmRange prior minX minY maxX maxY).1 = prior) ∧
    ((confirmRange prior minX minY maxX maxY).2 = .success ↔
      rangeRulesOk minX minY maxX maxY) ∧
    ((confirmRange prior minX minY maxX maxY).2 = .success →
      (confirmRange prior minX minY maxX maxY).1 = some ⟨minX, minY, maxX, maxY⟩) := by
  unfold confirmRange rangeRulesOk
  split_ifs with h1 h2 h3 h4
  · refine ⟨fun _ => rfl, ⟨fun h => by simp at h, fun h => ?_⟩, fun h => by simp at h⟩
    rcases h1 with h1 | h1 | h1 | h1 <;> [skip; skip; skip; skip] <;> obtain ⟨hd, _, _, _⟩ := h <;>
      rcases hd with ⟨a1, a2, a3, a4⟩ <;> linarith
  · refine ⟨fun _ => rfl, ⟨fun h => by simp at h, fun h => ?_⟩, fun h => by simp at h⟩
    rcases h2 with h2 | h2 | h2 | h2 <;> obtain ⟨_, hd, _, _⟩ := h <;>
      rcases hd with ⟨a1, a2, a3, a4⟩ <;> linarith
  · refine ⟨fun _ => rfl, ⟨fun h => by simp at h, fun h => ?_⟩, fun h => by simp at h⟩
    rcases h3 with h3 | h3 <;> obtain ⟨_, _, ⟨hd1, hd2⟩, _⟩ := h <;> linarith
  · refine ⟨fun _ => rfl, ⟨fun h => by simp at h, fun h => ?_⟩, fun h => by simp at h⟩
    rcases h4 with h4 | h4 <;> obtain ⟨_, _, _, hd1, hd2⟩ := h <;> linarith
  · push_neg at h1 h2 h3 h4
    refine ⟨fun h => absurd rfl h, ⟨fun _ => ?_, fun _ => rfl⟩, fun _ => rfl⟩
    obtain ⟨b1, b2, b3, b4⟩ := h1
    obtain ⟨c1, c2, c3, c4⟩ := h2
    obtain ⟨d1, d2⟩ := h3
    obtain ⟨e1, e2⟩ := h4
    exact ⟨⟨by linarith, by linarith, by linarith, by linarith⟩,
      ⟨by linarith, by linarith, by linarith, by linarith⟩,
      ⟨d1, d2⟩, ⟨by linarith, by linarith⟩⟩

/-- Witness for C2 at the spec's inverted example `set(10, 0, 0, 10)`: the
ordering rule fails and a previously installed extent is untouched. -/
theorem confirmRange_atomic_witness :
    confirmRange (some ⟨0, 0, 1, 1⟩) 10 0 0 10 = (some ⟨0, 0, 1, 1⟩, .minNotLessThanMax) ∧
    (confirmRange (some ⟨0, 0, 1, 1⟩) 10 0 0 10).1 = some ⟨0, 0, 1, 1⟩ := by
  refine ⟨by decide, (confirmRange_atomic (some ⟨0, 0, 1, 1⟩) 10 0 0 10).1 ?_⟩
  decide

/-- C3: with a range constraint installed, the drawend admission check keeps
a finished feature exactly when every one of its coordinates lies inside the
inclusive bounds (a Point is tested on its single coordinate, a LineString or
Polygon on every vertex); a rejected feature is removed from the drawing
source, so it never reaches the topology validator, which reads only that
source. -/
theorem admission_gate (ext : RangeExtent) (g : OLGeom) (draw : List OLGeom) :
    (isWithinRange ext g = true ↔
      ∀ c ∈ coordsOf g, ext.minLon ≤ c.1 ∧ c.1 ≤ ext.maxLon ∧
        ext.minLat ≤ c.2 ∧ c.2 ≤ ext.maxLat) ∧
    (isWithinRange ext g = true → drawEnd (some ext) draw g = draw ++ [g]) ∧
    (isWithinRange ext g = false → drawEnd (some ext) draw g = draw) := by
  refine ⟨?_, fun h => by simp [drawEnd, h], fun h => by simp [drawEnd, h]⟩
  cases g with
  | point c =>
    simp only [isWithinRange, coordsOf, List.mem_singleton, coordOutside,
      Bool.not_eq_true', decide_eq_false_iff_not]
    push_neg
    constructor
    · rintro ⟨a, b, c', d⟩ x hx; subst hx; exact ⟨a, b, c', d⟩
    · intro h; exact h c rfl
  | lineString cs =>
    simp only [isWithinRange, coordsOf, List.all_eq_true, coordOutside,
      Bool.not_eq_true', decide_eq_false_iff_not]
    push_neg
    rfl
  | polygon rings =>
    simp only [isWithinRange, coordsOf, List.all_eq_true, coordOutside,
      Bool.not_eq_true', decide_eq_false_iff_not, List.mem_flatMap, id]
    push_neg
    constructor
    · rintro h c ⟨r, hr, hc⟩; exact h r hr c hc
    · intro h r hr c hc; exact h c ⟨r, hr, hc⟩

/-- Witness for C3 at the spec's example: extent `(0,0,10,10)` admits
`Point(5,5)` and removes `Point(15,5)`. -/
theorem admission_gate_witness :
    drawEnd (some ⟨0, 0, 10, 10⟩) [] (.point (5, 5)) = [.point (5, 5)] ∧
    drawEnd (some ⟨0, 0, 10, 10⟩) [] (.point (15, 5)) = [] :=
  ⟨(admission_gate ⟨0, 0, 10, 10⟩ (.point (5, 5)) []).2.1 (by decide),
   (admission_gate ⟨0, 0, 10, 10⟩ (.point (15, 5)) []).2.2 (by decide)⟩

/-- C4 (failing input): on the collection holding the single unclosed
polygon ring `[(0,0),(0,1),(1,0)]`, the `turf.polygon` constructor throws
during the conversion step (a ring needs at least four positions and exact
closure), *outside* every `try`/`catch`, so the whole validation aborts with
an uncaught exception instead of reporting the "unclosed ring" violation —
for every oracle instantiation, since no geometric routine is ever reached.
(The in-function closure check of part_004 lines 263-275 is unreachable:
rings that get past the constructor are exactly closed.) -/
theorem unclosedRing_aborts_validation (geo : Geo) :
    runTopology geo ⟨[.polygon [[(0, 0), (0, 1), (1, 0)]]], []⟩ =
      (⟨[.polygon [[(0, 0), (0, 1), (1, 0)]]], []⟩, .aborted) := rfl

/-- C7 (failing input): with the union-area oracle returning
`area(A) + area(B) + 0.001` (a 0.001 m² sliver), the validator *does* report
a gap violation carrying that value, although 0.001 m² is a thousand times
below the "about 1 square meter" the adjacent source comment (and the spec)
promise: the guard compares against the literal `0.0001`. -/
theorem gapThreshold_mismatch :
    errorsOf (runTopology { geo0 with unionArea := fun _ _ => some (some (2 + 1 / 1000)) }
        ⟨[.polygon [ringA], .polygon [ringB]], []⟩).2 = [.gap 1 2 (1 / 1000)] ∧
    (1 / 1000 : ℚ) < 1 := by decide

/-- C8 (failing input): `turf.booleanIntersects` (part_004 line 398) is the
one pairwise predicate call not wrapped in `try`/`catch`; when it throws on
the first polygon pair, the whole scan aborts — the remaining pairs are never
checked and no violation list at all is produced, instead of the failure
being downgraded to an inconclusive entry. -/
theorem intersectsThrow_aborts_scan :
    (runTopology { geo0 with booleanIntersects := fun _ _ => none }
        ⟨[.polygon [ringA], .polygon [ringB], .polygon [ringA]], []⟩).2 = .aborted := by decide

/-- C5 (counterexample): Points at `(10.0, 20.0)` and
`(10.0000001, 20.0000001)` with the point-distance oracle below the 0.1 m
threshold (the real `turf.distance` gives ≈ 0.015 m here) produce *two*
"points coincide" violations — one per ordering, because the scan lives in
the per-feature pass and tests every index pair twice — not the single
violation the claim states. -/
theorem duplicatePoints_counterexample :
    ((errorsOf (runTopology { geo0 with distance := fun _ _ => 1 / 50 }
        ⟨[.point ptA, .point ptB], []⟩).2).filter isCoincide).length = 2 ∧
    errorsOf (runTopology { geo0 with distance := fun _ _ => 1 / 50 }
        ⟨[.point ptA, .point ptB], []⟩).2 =
      [.pointsTooClose 1 2 (1 / 50), .pointsTooClose 2 1 (1 / 50)] := by decide

/-- C9 (counterexample): on a snapshot with two coincident Points followed by
two polygons whose `distanceToLine` is below 0.1 m (an adjacency note), the
violation list contains the informational `adjacent` entry for features 3 and
4, yet neither position 2 nor 3 is highlighted — implicated ids of
informational entries are *not* collected — and the point-coincidence
violations appear in the per-feature pass once per ordering (including the
`(2,1)` ordering), not once per unordered pair after the self-checks. -/
theorem orderingHighlight_counterexample :
    Violation.adjacent 3 4 ∈ errorsOf (runTopology
        { geo0 with distance := fun _ _ => 1 / 50, distanceToLine := fun _ _ => some (1 / 20) }
        ⟨[.point ptA, .point ptB, .polygon [ringA], .polygon [ringB]], []⟩).2 ∧
    (2 : Nat) ∉ highlightedOf (runTopology
        { geo0 with distance := fun _ _ => 1 / 50, distanceToLine := fun _ _ => some (1 / 20) }
        ⟨[.point ptA, .point ptB, .polygon [ringA], .polygon [ringB]], []⟩).2 ∧
    (3 : Nat) ∉ highlightedOf (runTopology
        { geo0 with distance := fun _ _ => 1 / 50, distanceToLine := fun _ _ => some (1 / 20) }
        ⟨[.point ptA, .point ptB, .polygon [ringA], .polygon [ringB]], []⟩).2 ∧
    Violation.pointsTooClose 2 1 (1 / 50) ∈ errorsOf (runTopology
        { geo0 with distance := fun _ _ => 1 / 50, distanceToLine := fun _ _ => some (1 / 20) }
        ⟨[.point ptA, .point ptB, .polygon [ringA], .polygon [ringB]], []⟩).2 := by decide

/-- C5 (amended): for a pair of Point features whose distance is below the
0.1 m duplicate threshold in both directions (`turf.distance` is symmetric),
the validation reports exactly *two* "points coincide" violations — one per
ordering, each carrying the measured distance — and none once the distance
reaches the threshold (e.g. after moving the second point 10 m away). -/
theorem duplicatePoints_amended (geo : Geo) (p q : Coord) :
    (geo.distance p q < coincideM → geo.distance q p < coincideM →
      (errorsOf (runTopology geo ⟨[.point p, .point q], []⟩).2).filter isCoincide =
        [.pointsTooClose 1 2 (geo.distance p q), .pointsTooClose 2 1 (geo.distance q p)]) ∧
    (coincideM ≤ geo.distance p q → coincideM ≤ geo.distance q p →
      (errorsOf (runTopology geo ⟨[.point p, .point q], []⟩).2).filter isCoincide = []) := by
  have hconv : toTurf [OLGeom.point p, OLGeom.point q] =
      .ok [⟨.point p, 1, 0⟩, ⟨.point q, 2, 1⟩] := rfl
  constructor
  · intro h1 h2
    rcases hov : geo.booleanOverlap (TGeom.point p) (TGeom.point q) with _ | b
    · simp [runTopology, checkCore, hconv, selfPhase, selfCheckFeature, pointSelf,
        orderedPairs, pairPhase, pairCheck, polyPairCheck, overlapCheck, crossCheck,
        linePolyCheck, polyLineCheck, endpointPairCheck, pushEntries, groupPhase,
        isPolyFeat, errorsOf, isCoincide, hov, h1, h2, insertIdx]
    · cases b <;> simp [runTopology, checkCore, hconv, selfPhase, selfCheckFeature, pointSelf,
        orderedPairs, pairPhase, pairCheck, polyPairCheck, overlapCheck, crossCheck,
        linePolyCheck, polyLineCheck, endpointPairCheck, pushEntries, groupPhase,
        isPolyFeat, errorsOf, isCoincide, hov, h1, h2, insertIdx]
  · intro h1 h2
    rcases hov : geo.booleanOverlap (TGeom.point p) (TGeom.point q) with _ | b
    · simp [runTopology, checkCore, hconv, selfPhase, selfCheckFeature, pointSelf,
        orderedPairs, pairPhase, pairCheck, polyPairCheck, overlapCheck, crossCheck,
        linePolyCheck, polyLineCheck, endpointPairCheck, pushEntries, groupPhase,
        isPolyFeat, errorsOf, isCoincide, hov, not_lt.mpr h1, not_lt.mpr h2, insertIdx]
    · cases b <;> simp [runTopology, checkCore, hconv, selfPhase, selfCheckFeature, pointSelf,
        orderedPairs, pairPhase, pairCheck, polyPairCheck, overlapCheck, crossCheck,
        linePolyCheck, polyLineCheck, endpointPairCheck, pushEntries, groupPhase,
        isPolyFeat, errorsOf, isCoincide, hov, not_lt.mpr h1, not_lt.mpr h2, insertIdx]

/-- Witness for C5 (amended) at the spec's coordinates: with an oracle giving
0.02 m between the two points both violations appear; with the benign oracle
(1000 m apart) none do. -/
theorem duplicatePoints_amended_witness :
    (errorsOf (runTopology { geo0 with distance := fun _ _ => 1 / 50 }
        ⟨[.point ptA, .point ptB], []⟩).2).filter isCoincide =
      [.pointsTooClose 1 2 (1 / 50), .pointsTooClose 2 1 (1 / 50)] ∧
    (errorsOf (runTopology geo0 ⟨[.point ptA, .point ptB], []⟩).2).filter isCoincide = [] :=
  ⟨(duplicatePoints_amended { geo0 with distance := fun _ _ => 1 / 50 } ptA ptB).1
      (by decide) (by decide),
   (duplicatePoints_amended geo0 ptA ptB).2 (by decide) (by decide)⟩

/-- Helper: the error component of the accumulator after recording a pair's
entries is the old component extended by the entries' violations. -/
theorem pushEntries_fst (o1 o2 : Nat) (acc : List Violation × List Nat)
    (es : List (Violation × Bool)) :
    (pushEntries o1 o2 acc es).1 = acc.1 ++ es.map Prod.fst := by
  induction es generalizing acc with
  | nil => simp [pushEntries]
  | cons e rest ih =>
    have h : pushEntries o1 o2 acc (e :: rest) =
        pushEntries o1 o2
          (acc.1 ++ [e.1], if e.2 then insertIdx (insertIdx acc.2 o1) o2 else acc.2) rest := rfl
    rw [h, ih]
    simp

/-- Helper: every self-check violation of a LineString is one of the three
line-specific kinds. -/
theorem mem_lineSelf_shape (geo : Geo) (fi : Nat) (cs : List Coord) (v : Violation)
    (h : v ∈ lineSelf geo fi cs) :
    v = .tooFewLinePoints fi ∨ v = .lineTooShort fi ∨ v = .duplicateVertex fi := by
  unfold lineSelf dupVertexViolations at h
  rcases List.mem_append.mp h with h | h
  · rcases List.mem_append.mp h with h | h
    · split at h <;> simp_all
    · split at h <;> simp_all
  · obtain ⟨i, _, hi⟩ := List.mem_filterMap.mp h
    split at hi <;> simp_all

/-- Helper: line self-checks never produce a dangling-endpoint violation. -/
theorem lineSelf_filter_dangling (geo : Geo) (fi : Nat) (cs : List Coord) :
    (lineSelf geo fi cs).filter isDangling = [] := by
  rw [List.filter_eq_nil_iff]
  intro v hv
  rcases mem_lineSelf_shape geo fi cs v hv with h | h | h <;> subst h <;> simp [isDangling]

/-- C6: for a snapshot of two LineString features, (1) when the crossing
predicate holds a "crossing" violation is reported; (2) when no endpoint pair
coincides within 0.1 m but the minimum endpoint distance is below the 1 m
dangling threshold, exactly one "potential dangling endpoint" violation is
reported, carrying that minimum distance; (3) when exactly one endpoint pair
coincides, a "single-endpoint connection, possible dangle" violation is
reported. -/
theorem lineLine_pairwise (geo : Geo) (cs1 cs2 : List Coord)
    (h1 : 2 ≤ cs1.length) (h2 : 2 ≤ cs2.length) :
    (geo.booleanCrosses (.line cs1) (.line cs2) = some true →
      Violation.crossing 1 2 ∈ errorsOf (twoLineRun geo cs1 cs2)) ∧
    ((∀ d ∈ endpointDists geo cs1 cs2, coincideM ≤ d) →
      minEndpointDist geo cs1 cs2 < dangleM →
      (errorsOf (twoLineRun geo cs1 cs2)).filter isDangling =
        [.dangling 1 2 (minEndpointDist geo cs1 cs2)]) ∧
    (((endpointDists geo cs1 cs2).filter fun d => d < coincideM).length = 1 →
      Violation.singleEndpoint 1 2 ∈ errorsOf (twoLineRun geo cs1 cs2)) := by
  have hc1 : convGeom (OLGeom.lineString cs1) = .ok (.line cs1) := by
    simp [convGeom, turfLineString]; omega
  have hc2 : convGeom (OLGeom.lineString cs2) = .ok (.line cs2) := by
    simp [convGeom, turfLineString]; omega
  have hconv : toTurf [OLGeom.lineString cs1, OLGeom.lineString cs2] =
      .ok [⟨.line cs1, 1, 0⟩, ⟨.line cs2, 2, 1⟩] := by
    simp [toTurf, toTurfAux, hc1, hc2]
  refine ⟨?_, ?_, ?_⟩
  · intro hcr
    rcases hov : geo.booleanOverlap (TGeom.line cs1) (TGeom.line cs2) with _ | b
    · simp [twoLineRun, runTopology, checkCore, hconv, selfPhase, selfCheckFeature,
        orderedPairs, pairPhase, pairCheck, polyPairCheck, overlapCheck, crossCheck,
        linePolyCheck, polyLineCheck, endpointPairCheck, groupPhase,
        isPolyFeat, errorsOf, hov, hcr, insertIdx, pushEntries_fst]
    · cases b <;> simp [twoLineRun, runTopology, checkCore, hconv, selfPhase, selfCheckFeature,
        orderedPairs, pairPhase, pairCheck, polyPairCheck, overlapCheck, crossCheck,
        linePolyCheck, polyLineCheck, endpointPairCheck, groupPhase,
        isPolyFeat, errorsOf, hov, hcr, insertIdx, pushEntries_fst]
  · intro hfar hmin
    have hfil : (endpointDists geo cs1 cs2).filter (fun d => d < coincideM) = [] := by
      rw [List.filter_eq_nil_iff]
      intro d hd
      simp [not_lt.mpr (hfar d hd)]
    rcases hov : geo.booleanOverlap (TGeom.line cs1) (TGeom.line cs2) with _ | b <;>
    rcases hcr : geo.booleanCrosses (TGeom.line cs1) (TGeom.line cs2) with _ | c
    · simp [twoLineRun, runTopology, checkCore, hconv, selfPhase, selfCheckFeature,
        orderedPairs, pairPhase, pairCheck, polyPairCheck, overlapCheck, crossCheck,
        linePolyCheck, polyLineCheck, endpointPairCheck, groupPhase,
        isPolyFeat, errorsOf, hov, hcr, hfil, hmin, insertIdx, lineSelf_filter_dangling,
        isDangling, pushEntries_fst]
    · cases c <;> simp [twoLineRun, runTopology, checkCore, hconv, selfPhase, selfCheckFeature,
        orderedPairs, pairPhase, pairCheck, polyPairCheck, overlapCheck, crossCheck,
        linePolyCheck, polyLineCheck, endpointPairCheck, groupPhase,
        isPolyFeat, errorsOf, hov, hcr, hfil, hmin, insertIdx, lineSelf_filter_dangling,
        isDangling, pushEntries_fst]
    · cases b <;> simp [twoLineRun, runTopology, checkCore, hconv, selfPhase, selfCheckFeature,
        orderedPairs, pairPhase, pairCheck, polyPairCheck, overlapCheck, crossCheck,
        linePolyCheck, polyLineCheck, endpointPairCheck, groupPhase,
        isPolyFeat, errorsOf, hov, hcr, hfil, hmin, insertIdx, lineSelf_filter_dangling,
        isDangling, pushEntries_fst]
    · cases b <;> cases c <;> simp [twoLineRun, runTopology, checkCore, hconv, selfPhase,
        selfCheckFeature, orderedPairs, pairPhase, pairCheck, polyPairCheck, overlapCheck,
        crossCheck, linePolyCheck, polyLineCheck, endpointPairCheck, groupPhase,
        isPolyFeat, errorsOf, hov, hcr, hfil, hmin, insertIdx, lineSelf_filter_dangling,
        isDangling, pushEntries_fst]
  · intro hone
    have hzero : ¬ (((endpointDists geo cs1 cs2).filter fun d => d < coincideM).length = 0) := by
      omega
    rcases hov : geo.booleanOverlap (TGeom.line cs1) (TGeom.line cs2) with _ | b
    · simp [twoLineRun, runTopology, checkCore, hconv, selfPhase, selfCheckFeature,
        orderedPairs, pairPhase, pairCheck, polyPairCheck, overlapCheck, crossCheck,
        linePolyCheck, polyLineCheck, endpointPairCheck, groupPhase,
        isPolyFeat, errorsOf, hov, hone, hzero, insertIdx, pushEntries_fst]
    · cases b <;> simp [twoLineRun, runTopology, checkCore, hconv, selfPhase, selfCheckFeature,
        orderedPairs, pairPhase, pairCheck, polyPairCheck, overlapCheck, crossCheck,
        linePolyCheck, polyLineCheck, endpointPairCheck, groupPhase,
        isPolyFeat, errorsOf, hov, hone, hzero, insertIdx, pushEntries_fst]

/-- Witness for C6: with the endpoint-distance oracle at 0.5 m (the spec's
dangling example, below the 1 m threshold and above the 0.1 m coincidence
epsilon) exactly one dangling violation appears; with the crossing oracle
answering true, a crossing violation appears. -/
theorem lineLine_pairwise_witness :
    (errorsOf (twoLineRun { geo0 with distance := fun _ _ => 1 / 2 } lnA lnB)).filter isDangling =
      [.dangling 1 2 (1 / 2)] ∧
    Violation.crossing 1 2 ∈
      errorsOf (twoLineRun { geo0 with booleanCrosses := fun _ _ => some true } lnA lnB) := by
  constructor
  · have h := (lineLine_pairwise { geo0 with distance := fun _ _ => 1 / 2 } lnA lnB
      (by decide) (by decide)).2.1 (by decide) (by decide)
    rwa [show minEndpointDist { geo0 with distance := fun _ _ => 1 / 2 } lnA lnB = 1 / 2
      by decide] at h
  · exact (lineLine_pairwise { geo0 with booleanCrosses := fun _ _ => some true } lnA lnB
      (by decide) (by decide)).1 (by decide)

/-- Helper: membership after a JS-`Set`-style insertion. -/
theorem mem_insertIdx (l : List Nat) (i j : Nat) :
    j ∈ insertIdx l i ↔ j ∈ l ∨ j = i := by
  unfold insertIdx
  split
  · rename_i h
    constructor
    · exact Or.inl
    · rintro (hj | rfl)
      · exact hj
      · exact h
  · simp

/-- Helper: membership in the highlighted-index accumulator after recording a
pair's entries: an index is added exactly when some entry is a highlighted
push site and the index is one of the two feature positions. -/
theorem pushEntries_snd_mem (o1 o2 : Nat) (acc : List Violation × List Nat)
    (es : List (Violation × Bool)) (i : Nat) :
    i ∈ (pushEntries o1 o2 acc es).2 ↔
      i ∈ acc.2 ∨ ((∃ e ∈ es, e.2 = true) ∧ (i = o1 ∨ i = o2)) := by
  induction es generalizing acc with
  | nil => simp [pushEntries]
  | cons e rest ih =>
    have h : pushEntries o1 o2 acc (e :: rest) =
        pushEntries o1 o2
          (acc.1 ++ [e.1], if e.2 then insertIdx (insertIdx acc.2 o1) o2 else acc.2) rest := rfl
    rw [h, ih]
    by_cases he : e.2 = true
    · simp only [he, if_true, mem_insertIdx]
      have hex : ∃ x ∈ e :: rest, x.2 = true := ⟨e, List.mem_cons_self e rest, he⟩
      constructor
      · rintro (((ha | rfl) | rfl) | ⟨⟨e', he', het⟩, hi⟩)
        · exact Or.inl ha
        · exact Or.inr ⟨hex, Or.inl rfl⟩
        · exact Or.inr ⟨hex, Or.inr rfl⟩
        · exact Or.inr ⟨hex, hi⟩
      · rintro (ha | ⟨_, hi⟩)
        · exact Or.inl (Or.inl (Or.inl ha))
        · rcases hi with rfl | rfl
          · exact Or.inl (Or.inl (Or.inr rfl))
          · exact Or.inl (Or.inr rfl)
    · simp only [he, if_false]
      simp only [List.mem_cons]
      constructor
      · rintro (ha | hb)
        · exact Or.inl ha
        · obtain ⟨⟨e', he', het⟩, hi⟩ := hb
          exact Or.inr ⟨⟨e', Or.inr he', het⟩, hi⟩
      · rintro (ha | ⟨⟨e', rfl | he', het⟩, hi⟩)
        · exact Or.inl ha
        · exact absurd het he
        · exact Or.inr ⟨⟨e', he', het⟩, hi⟩

/-- Helper: a completed pairwise scan appends, pair by pair in scan order, the
violations of each `pairCheck`, and its highlighted-index set is the initial
set extended by the positions of the pairs with a highlighted entry. -/
theorem pairPhase_some (geo : Geo) (pairs : List (TFeat × TFeat))
    (acc r : List Violation × List Nat)
    (h : pairPhase geo pairs acc = some r) :
    r.1 = acc.1 ++ (pairs.flatMap fun p => ((pairCheck geo p.1 p.2).getD []).map Prod.fst) ∧
    ∀ i, i ∈ r.2 ↔ i ∈ acc.2 ∨
      ∃ p ∈ pairs, (∃ e ∈ (pairCheck geo p.1 p.2).getD [], e.2 = true) ∧
        (i = p.1.originalIndex ∨ i = p.2.originalIndex) := by
  induction pairs generalizing acc with
  | nil =>
    simp [pairPhase] at h
    subst h
    simp
  | cons p rest ih =>
    obtain ⟨f1, f2⟩ := p
    rw [pairPhase] at h
    rcases hp : pairCheck geo f1 f2 with _ | es
    · rw [hp] at h; exact absurd h (by simp)
    · rw [hp] at h
      obtain ⟨ih1, ih2⟩ := ih _ h
      constructor
      · rw [ih1, pushEntries_fst]
        simp [hp]
      · intro i
        rw [ih2 i, pushEntries_snd_mem]
        simp only [hp, Option.getD_some, List.mem_cons, List.flatMap_cons]
        constructor
        · rintro ((ha | hb) | hc)
          · exact Or.inl ha
          · exact Or.inr ⟨(f1, f2), Or.inl rfl, by simpa [hp] using hb.1, hb.2⟩
          · obtain ⟨q, hq, hqe, hqi⟩ := hc
            exact Or.inr ⟨q, Or.inr hq, hqe, hqi⟩
        · rintro (ha | ⟨q, hq | hq, hqe, hqi⟩)
          · exact Or.inl (Or.inl ha)
          · subst hq
            exact Or.inl (Or.inr ⟨by simpa [hp] using hqe, hqi⟩)
          · exact Or.inr ⟨q, hq, hqe, hqi⟩

/-- Helper: a position is highlighted by the self phase exactly when its
feature produced at least one self-check violation. -/
theorem selfPhase_snd_mem (geo : Geo) (tfs : List TFeat) (i : Nat) :
    i ∈ (selfPhase geo tfs).2 ↔
      ∃ f ∈ tfs, f.originalIndex = i ∧ selfCheckFeature geo tfs f ≠ [] := by
  simp only [selfPhase, List.mem_filterMap]
  constructor
  · rintro ⟨f, hf, hsome⟩
    by_cases hc : selfCheckFeature geo tfs f = []
    · simp [hc] at hsome
    · simp [hc] at hsome
      exact ⟨f, hf, hsome, hc⟩
  · rintro ⟨f, hf, rfl, hc⟩
    exact ⟨f, hf, by simp [hc]⟩

/-- Helper: conversion assigns the 1-based ordinals in increasing positional
order. -/
theorem toTurfAux_indices (k : Nat) (gs : List OLGeom) (tfs : List TFeat)
    (h : toTurfAux k gs = .ok tfs) :
    tfs.map TFeat.index = List.range' (k + 1) gs.length := by
  induction gs generalizing k tfs with
  | nil =>
    simp [toTurfAux] at h
    subst h
    simp
  | cons g rest ih =>
    rw [toTurfAux] at h
    rcases hg : convGeom g with e | tg <;> rw [hg] at h
    · exact absurd h (by simp)
    · rcases hr : toTurfAux (k + 1) rest with e | trest <;> rw [hr] at h
      · exact absurd h (by simp)
      · simp only [Except.ok.injEq] at h
        subst h
        simp only [List.map_cons, List.length_cons, List.range'_succ]
        exact congrArg (List.cons (k + 1)) (ih (k + 1) trest hr)

/-- Helper: point self-checks only produce coincidence violations naming the
scanned feature first. -/
theorem mem_pointSelf_shape (geo : Geo) (all : List TFeat) (f : TFeat) (c : Coord)
    (v : Violation) (h : v ∈ pointSelf geo all f c) :
    ∃ j d, v = .pointsTooClose f.index j d := by
  obtain ⟨o, homem, ho⟩ := List.mem_filterMap.mp h
  by_cases hne : o.originalIndex ≠ f.originalIndex
  · simp only [if_pos hne] at ho
    rcases hog : o.geom with c2 | cs | ring <;> simp only [hog] at ho
    · by_cases hd : geo.distance c c2 < coincideM
      · refine ⟨o.index, geo.distance c c2, ?_⟩
        simp only [if_pos hd] at ho
        exact (Option.some_inj.mp ho).symm
      · rw [if_neg hd] at ho
        exact absurd ho (by simp)
    · exact absurd ho (by simp)
    · exact absurd ho (by simp)
  · rw [if_neg hne] at ho
    exact absurd ho (by simp)

/-- Helper: every polygon self-check violation is one of the five
polygon-specific kinds. -/
theorem mem_polySelf_shape (geo : Geo) (fi : Nat) (ring : List Coord) (v : Violation)
    (h : v ∈ polySelf geo fi ring) :
    v = .invalidPolygon fi ∨ v = .selfIntersect fi ∨ v = .tooFewPoints fi ∨
      v = .unclosed fi ∨ v = .areaTooSmall fi := by
  unfold polySelf at h
  split at h
  · simp_all
  · rcases List.mem_append.mp h with h1 | h1
    · rcases List.mem_append.mp h1 with h2 | h2
      · rcases List.mem_append.mp h2 with h3 | h3
        · split at h3 <;> simp_all
        · split at h3 <;> simp_all
      · split at h2 <;> simp_all
    · split at h1 <;> simp_all

/-- Helper: every self-phase violation of a feature names that feature's
ordinal first. -/
theorem selfCheckFeature_primary (geo : Geo) (all : List TFeat) (f : TFeat)
    (v : Violation) (h : v ∈ selfCheckFeature geo all f) : primaryId v = f.index := by
  unfold selfCheckFeature at h
  split at h
  · obtain ⟨j, d, rfl⟩ := mem_pointSelf_shape geo all f _ v h
    rfl
  · rcases mem_lineSelf_shape geo f.index _ v h with rfl | rfl | rfl <;> rfl
  · rcases mem_polySelf_shape geo f.index _ v h with rfl | rfl | rfl | rfl | rfl <;> rfl

/-- Helper: concatenating per-feature violation blocks over an
index-increasing feature list yields a primary-ordinal-sorted list. -/
theorem flatMap_primary_sorted (l : List TFeat) (g : TFeat → List Violation)
    (hloc : ∀ t ∈ l, ∀ v ∈ g t, primaryId v = t.index)
    (hsort : (l.map TFeat.index).Pairwise (· < ·)) :
    ((l.flatMap g).map primaryId).Pairwise (· ≤ ·) := by
  induction l with
  | nil => simp
  | cons t rest ih =>
    simp only [List.map_cons, List.pairwise_cons] at hsort
    obtain ⟨hlt, hrest⟩ := hsort
    simp only [List.flatMap_cons, List.map_append, List.pairwise_append]
    refine ⟨?_, ih (fun u hu v hv => hloc u (List.mem_cons_of_mem t hu) v hv) hrest, ?_⟩
    · apply List.pairwise_of_forall_mem_list
      intro a ha b hb
      obtain ⟨va, hva, rfl⟩ := List.mem_map.mp ha
      obtain ⟨vb, hvb, rfl⟩ := List.mem_map.mp hb
      rw [hloc t (List.mem_cons_self t rest) va hva,
        hloc t (List.mem_cons_self t rest) vb hvb]
    · intro a ha b hb
      obtain ⟨va, hva, rfl⟩ := List.mem_map.mp ha
      obtain ⟨vb, hvb, rfl⟩ := List.mem_map.mp hb
      rw [hloc t (List.mem_cons_self t rest) va hva]
      obtain ⟨u, hu, hvbu⟩ := List.mem_flatMap.mp hvb
      rw [hloc u (List.mem_cons_of_mem t hu) vb hvbu]
      have hlt' : t.index < u.index := hlt u.index (List.mem_map.mpr ⟨u, hu, rfl⟩)
      omega

/-- Helper: the self-phase violations are sorted by the ordinal of the feature
they concern. -/
theorem selfPhase_sorted (geo : Geo) (tfs : List TFeat)
    (hsort : (tfs.map TFeat.index).Pairwise (· < ·)) :
    ((selfPhase geo tfs).1.map primaryId).Pairwise (· ≤ ·) :=
  flatMap_primary_sorted tfs (selfCheckFeature geo tfs)
    (fun t _ v hv => selfCheckFeature_primary geo tfs t v hv) hsort

/-- C9 (amended): on every completed validation run the violation list
decomposes, in order, into the per-feature pass (which is sorted by feature
ordinal and contains the self-checks *and* the point-coincidence entries, one
per ordered pair), then the pairwise violations in `(i, j)` scan order, then
the shared-boundary notes of the trailing polygon-group pass; and a feature
position is highlighted exactly when it produced a self-phase violation or
took part in a highlighted (error-class) pairwise push — informational
entries (adjacency, line-in-polygon, shared-boundary) highlight nothing. -/
theorem validation_order_highlight (geo : Geo) (gs : List OLGeom) (tfs : List TFeat)
    (es : List Violation) (idx : List Nat)
    (hconv : toTurf gs = .ok tfs)
    (hrun : checkCore geo gs = .report es idx) :
    es = (selfPhase geo tfs).1 ++ pairFlatErrors geo tfs ++ groupPhase geo tfs ∧
    ((selfPhase geo tfs).1.map primaryId).Pairwise (· ≤ ·) ∧
    (∀ i, i ∈ idx ↔
      (∃ f ∈ tfs, f.originalIndex = i ∧ selfCheckFeature geo tfs f ≠ []) ∨
      ∃ p ∈ orderedPairs tfs, (∃ e ∈ (pairCheck geo p.1 p.2).getD [], e.2 = true) ∧
        (i = p.1.originalIndex ∨ i = p.2.originalIndex)) := by
  rcases hp : pairPhase geo (orderedPairs tfs) (selfPhase geo tfs) with _ | ⟨res, ridx⟩ <;>
    rw [checkCore] at hrun <;> simp only [hconv, hp] at hrun
  · exact absurd hrun (by simp)
  · simp only [CoreResult.report.injEq] at hrun
    obtain ⟨hes, hidx⟩ := hrun
    obtain ⟨h1, h2⟩ := pairPhase_some geo _ _ _ hp
    dsimp only at h1 h2
    refine ⟨?_, ?_, ?_⟩
    · rw [← hes, h1]
      simp [pairFlatErrors]
    · apply selfPhase_sorted
      have hidc := toTurfAux_indices 0 gs tfs (by simpa [toTurf] using hconv)
      rw [hidc]
      exact List.pairwise_lt_range' 1 gs.length
    · intro i
      rw [← hidx, h2 i, selfPhase_snd_mem]

/-- Witness for C9 (amended) on the two-coincident-point snapshot: the
violation list of the completed run is exactly the three-phase concatenation
the theorem describes. -/
theorem validation_order_highlight_witness :
    [Violation.pointsTooClose 1 2 (1 / 50), Violation.pointsTooClose 2 1 (1 / 50)] =
      (selfPhase geoW9 tfsW9).1 ++ pairFlatErrors geoW9 tfsW9 ++ groupPhase geoW9 tfsW9 :=
  (validation_order_highlight geoW9 gsW9 tfsW9
    [Violation.pointsTooClose 1 2 (1 / 50), Violation.pointsTooClose 2 1 (1 / 50)]
    [0, 1] rfl (by decide)).1
